import Mathlib

/- Shallow embedding of convert.py (batch H.264 → HEVC transcoder).
   Covers the unit converters, the metadata extractors (calc_duration,
   calc_bitrate, calc_fps), the stream classifier check_hevc, the encoder
   progress notifier, and the batch driver's duration comparison.
   Python numeric values are modelled exactly over ℤ/ℚ; fallible Python
   operations (int()/float() parses, divisions, unpacking, assertions)
   live in an Except monad. -/

namespace Convert

/-- Truncation toward zero, as Python int() applied to a real value. -/
def pyTrunc (q : ℚ) : ℤ := if 0 ≤ q then ⌊q⌋ else ⌈q⌉

/-- Value of one decimal digit character. -/
def charDigit (c : Char) : Option ℕ :=
  if '0' ≤ c ∧ c ≤ '9' then some (c.toNat - 48) else none

def digitsValAux : List Char → ℕ → Option ℕ
  | [], acc => some acc
  | c :: cs, acc =>
    match charDigit c with
    | some d => digitsValAux cs (acc * 10 + d)
    | none => none

/-- Value of a nonempty all-digit character list. -/
def digitsVal (cs : List Char) : Option ℕ :=
  match cs with
  | [] => none
  | _ => digitsValAux cs 0

def natOfDigits (cs : List Char) : ℕ := (digitsValAux cs 0).getD 0

/-- Python int(str) on the plain decimal forms this program feeds it. -/
def parseIntStr (s : String) : Option ℤ :=
  match s.data with
  | '-' :: rest => (digitsVal rest).map (fun n => -(n : ℤ))
  | '+' :: rest => (digitsVal rest).map (fun n => (n : ℤ))
  | cs => (digitsVal cs).map (fun n => (n : ℤ))

def parseFloatCore (cs : List Char) : Option ℚ :=
  let ip := cs.takeWhile (fun c => (charDigit c).isSome)
  let rest := cs.dropWhile (fun c => (charDigit c).isSome)
  match rest with
  | [] => (digitsVal ip).map (fun n => (n : ℚ))
  | '.' :: fs =>
    if fs.all (fun c => (charDigit c).isSome) ∧ (ip ≠ [] ∨ fs ≠ []) then
      some ((natOfDigits ip : ℚ) + (natOfDigits fs : ℚ) / (10 : ℚ) ^ fs.length)
    else none
  | _ => none

/-- Python float(str) on the plain decimal forms this program feeds it. -/
def parseFloatStr (s : String) : Option ℚ :=
  match s.data with
  | '-' :: rest => (parseFloatCore rest).map (fun q => -q)
  | '+' :: rest => parseFloatCore rest
  | cs => parseFloatCore cs

/-- Python round() to an integer: round half to even. -/
def roundHalfEven (q : ℚ) : ℤ :=
  let f := ⌊q⌋
  let r := q - (f : ℚ)
  if r < 1 / 2 then f
  else if 1 / 2 < r then f + 1
  else if f % 2 = 0 then f else f + 1

/-- Python round(x, 3). -/
def roundTo3 (q : ℚ) : ℚ := (roundHalfEven (q * 1000) : ℚ) / 1000

/-- First decimal digits of a fraction in [0, 1), stopping when the expansion
terminates (hence no trailing zeros), bounded by fuel. -/
def fracDigitsAux : ℕ → ℚ → List ℕ
  | 0, _ => []
  | n + 1, q =>
    if q = 0 then []
    else
      let d := ⌊q * 10⌋
      d.toNat :: fracDigitsAux n (q * 10 - (d : ℚ))

def digitChar (d : ℕ) : Char := Char.ofNat (48 + d)

/-- The post-decimal digit triplet sec_hum derives from Python str(x): the
shortest decimal expansion of the fractional part truncated to 3 digits,
"0" when the value has no fractional part. -/
def fracRepr3 (q : ℚ) : String :=
  let fr := q - (⌊q⌋ : ℚ)
  let ds := (fracDigitsAux 30 fr).take 3
  if ds = [] then "0" else String.mk (ds.map digitChar)

/-- Python "%02d" for the widths used here. -/
def pad2 (n : ℤ) : String :=
  let s := toString n
  if s.length < 2 then "0" ++ s else s

/-- sec_hum from convert.py: seconds to an H:M:S.d clock string. -/
def sec_hum (secQ : ℚ) : String :=
  let d := fracRepr3 secQ
  let sec := pyTrunc secQ
  let r := Int.fmod sec 3600
  pad2 (Int.fdiv sec 3600) ++ ":" ++ pad2 (Int.fdiv r 60) ++ ":" ++ pad2 (Int.fmod r 60) ++ "." ++ d

def ofOpt {α : Type} : Option α → Except Unit α
  | some a => Except.ok a
  | none => Except.error ()

def splitCharAux (sep : Char) : List Char → List Char → List (List Char)
  | [], acc => [acc.reverse]
  | c :: cs, acc =>
    if c = sep then acc.reverse :: splitCharAux sep cs []
    else splitCharAux sep cs (c :: acc)

/-- Python str.split(sep) for a one-character separator. -/
def splitChar (s : String) (sep : Char) : List String :=
  (splitCharAux sep s.data []).map String.mk

/-- hms2sec from convert.py: clock string to seconds; Python's 2-tuple-unpack
of split(":", 3) fails unless there are exactly two colons. -/
def hms2sec (d : String) : Except Unit ℚ :=
  match splitChar d ':' with
  | [h, m, s] => do
    let hi ← ofOpt (parseIntStr h)
    let mi ← ofOpt (parseIntStr m)
    let sq ← ofOpt (parseFloatStr s)
    pure ((hi : ℚ) * 3600 + (mi : ℚ) * 60 + sq)
  | _ => Except.error ()

/-- Python "%.2f" formatting of a non-negative value. -/
def formatFixed2 (q : ℚ) : String :=
  let n2 := roundHalfEven (q * 100)
  toString (Int.fdiv n2 100) ++ "." ++ pad2 (Int.fmod n2 100)

def sizeUnits : List String := ["B", "KB", "MB", "GB", "TB", "PB", "EB", "ZB", "YB"]

def size_humGo (neg : Bool) (old : ℤ) (size : ℚ) : ℚ → List String → String
  | _, [] => (if neg then "-" else "") ++ toString old
  | n, u :: rest =>
    if n / size < 1 then (if neg then "-" else "") ++ formatFixed2 n ++ u
    else size_humGo neg old size (n / size) rest

/-- size_hum from convert.py: human-readable byte count. -/
def size_hum (n : ℤ) (size : ℚ := 1024) : String :=
  size_humGo (decide (n < 0)) n size ((|n| : ℤ) : ℚ) sizeUnits

/-- bitrate_hum from convert.py. -/
def bitrate_hum (x : ℚ) : String := toString (pyTrunc (x / 1000)) ++ "kb/s"

def strTake (s : String) (n : ℕ) : String := String.mk (s.data.take n)

/-- Python s[-n:] slicing (n = 0 yields the whole string). -/
def pyTailSlice (s : String) (n : ℕ) : String :=
  if n = 0 then s else String.mk (s.data.drop (s.data.length - n))

/-- shorten from convert.py: middle-ellipsis truncation. -/
def shorten (s : String) (maxLength : ℕ) (placeholder : String := "...") : String :=
  if s.length ≤ maxLength then s
  else if maxLength ≤ placeholder.length then strTake s maxLength
  else
    let remaining := maxLength - placeholder.length
    let headLength := remaining / 2
    let tailLength := remaining - headLength
    strTake s headLength ++ placeholder ++ pyTailSlice s tailLength

def containsSubstrAux (pat : List Char) : List Char → Bool
  | [] => decide (pat = [])
  | c :: cs => pat.isPrefixOf (c :: cs) || containsSubstrAux pat cs

/-- Python str.find(pat) != -1. -/
def containsSubstr (s pat : String) : Bool :=
  containsSubstrAux pat.data s.data

def takeLastN {α : Type} (n : ℕ) (l : List α) : List α := l.drop (l.length - n)

/-- Python list[-2:]. -/
def takeLast2 {α : Type} (l : List α) : List α := l.drop (l.length - 2)

/- ProgressNotifier: a byte-stream parser over the encoder's diagnostic output.
   Bytes are modelled as characters; the tqdm display is modelled by its
   observable fields; writes to the output stream and to the encoder's stdin
   queue are recorded in the echoed/queued fields. -/

/-- The observable state of the tqdm progress display. -/
structure PBar where
  desc : Option String
  total : Option ℤ
  unit : String
  n : ℤ
  deriving DecidableEq

structure PNState where
  lines : List (List Char)
  line_acc : List Char
  duration : Option ℤ
  source : Option String
  fps : Option ℤ
  started : Bool
  pbar : Option PBar
  echoed : List Char
  queued : List String
  deriving DecidableEq

/-- ProgressNotifier.__init__. -/
def pnInit : PNState := ⟨[], [], none, none, none, false, none, [], []⟩

/-- Two decimal digits at the head of the input, with the rest. -/
def d2 : List Char → Option (ℕ × List Char)
  | c1 :: c2 :: rest =>
    match charDigit c1, charDigit c2 with
    | some a, some b => some (a * 10 + b, rest)
    | _, _ => none
  | _ => none

def litMatch : List Char → List Char → Option (List Char)
  | [], cs => some cs
  | p :: ps, c :: cs => if p = c then litMatch ps cs else none
  | _ :: _, [] => none

/-- Match intro ++ dd:dd:dd.dd at the head of the input (the shared shape of
the Duration: and time= regexes), returning the three integer groups. -/
def tryClock (intro : List Char) (cs : List Char) : Option (ℕ × ℕ × ℕ) := do
  let r1 ← litMatch intro cs
  let (h, r2) ← d2 r1
  let r3 ← litMatch [':'] r2
  let (m, r4) ← d2 r3
  let r5 ← litMatch [':'] r4
  let (s, r6) ← d2 r5
  let r7 ← litMatch ['.'] r6
  let _ ← d2 r7
  pure (h, m, s)

/-- Leftmost regex search for the clock pattern. -/
def searchClock (intro : List Char) : List Char → Option (ℕ × ℕ × ℕ)
  | [] => none
  | c :: cs =>
    match tryClock intro (c :: cs) with
    | some r => some r
    | none => searchClock intro cs

/-- ProgressNotifier._seconds. -/
def pySeconds (h m s : ℕ) : ℤ := ((h : ℤ) * 60 + (m : ℤ)) * 60 + (s : ℤ)

/-- ProgressNotifier.get_duration. -/
def get_duration (line : List Char) : Option ℤ :=
  (searchClock "Duration: ".data line).map (fun x => pySeconds x.1 x.2.1 x.2.2)

def tryFpsInt (ab : ℕ) (rest : List Char) : Option ℚ :=
  match litMatch " fps".data rest with
  | some _ => some ((ab : ℚ))
  | none => none

/-- Match the fps regex alternation dd.dd|dd followed by " fps" at the head. -/
def tryFps (cs : List Char) : Option ℚ :=
  match d2 cs with
  | none => none
  | some (ab, rest) =>
    match rest with
    | '.' :: r2 =>
      match d2 r2 with
      | some (cd, r3) =>
        match litMatch " fps".data r3 with
        | some _ => some ((ab : ℚ) + (cd : ℚ) / 100)
        | none => tryFpsInt ab rest
      | none => tryFpsInt ab rest
    | _ => tryFpsInt ab rest

def searchFps : List Char → Option ℚ
  | [] => none
  | c :: cs =>
    match tryFps (c :: cs) with
    | some r => some r
    | none => searchFps cs

/-- ProgressNotifier.get_fps: the matched rate rounded to the nearest integer. -/
def get_fps (line : List Char) : Option ℤ :=
  (searchFps line).map roundHalfEven

def quoteChar : Char := Char.ofNat 39

/-- Index of the last quote-colon pair, for the greedy group of the source regex. -/
def lastColonQuoteAux : List Char → ℕ → Option ℕ → Option ℕ
  | [], _, best => best
  | c :: cs, i, best =>
    match cs with
    | c2 :: _ => lastColonQuoteAux cs (i + 1) (if c = quoteChar ∧ c2 = ':' then some i else best)
    | [] => best

def trySource (cs : List Char) : Option (List Char) :=
  match litMatch ("from ".data ++ [quoteChar]) cs with
  | none => none
  | some rest =>
    match lastColonQuoteAux rest 0 none with
    | some k => some (rest.take k)
    | none => none

def searchSource : List Char → Option (List Char)
  | [] => none
  | c :: cs =>
    match trySource (c :: cs) with
    | some r => some r
    | none => searchSource cs

def backslashChar : Char := Char.ofNat 92

def basenameAux : List Char → List Char → List Char
  | [], acc => acc
  | c :: cs, acc =>
    if c = '/' ∨ c = backslashChar then basenameAux cs [] else basenameAux cs (acc ++ [c])

/-- os.path.basename as used on probe paths: the part after the last separator. -/
def pyBasename (s : String) : String := String.mk (basenameAux s.data [])

/-- ProgressNotifier.get_source. -/
def get_source (line : List Char) : Option String :=
  (searchSource line).map (fun g => shorten (pyBasename (String.mk g)) 50 "[...]")

def searchProgress (line : List Char) : Option (ℕ × ℕ × ℕ) := searchClock "time=".data line

/-- ProgressNotifier.progress. -/
def pnProgress (s : PNState) (line : List Char) : PNState :=
  match searchProgress line with
  | none => s
  | some g =>
    let total0 : Option ℤ := s.duration
    let current0 : ℤ := pySeconds g.1 g.2.1 g.2.2
    let step :=
      match s.fps with
      | none => (" seconds", current0, total0)
      | some f =>
        (" frames", current0 * f,
          match total0 with
          | none => none
          | some t => if t = 0 then some t else some (t * f))
    let p0 : PBar :=
      match s.pbar with
      | none => ⟨s.source, step.2.2, step.1, 0⟩
      | some p => p
    { s with pbar := some { p0 with n := p0.n + (step.2.1 - p0.n) } }

/-- ProgressNotifier.newline: flush the accumulated buffer into the bounded
two-line history, returning the flushed line. -/
def pnNewline (s : PNState) : List Char × PNState :=
  (s.line_acc, { s with lines := takeLast2 (s.lines ++ [s.line_acc]), line_acc := [] })

def promptTail : List Char := "[y/N] ".data

/-- ProgressNotifier.__call__ for one byte of encoder output. stdin says whether
an input queue was supplied; inp is the line the terminal would provide. -/
def pnCall (s : PNState) (c : Char) (stdin : Bool) (inp : String) : PNState :=
  if c = '\r' ∨ c = '\n' then
    let r := pnNewline s
    let line := r.1
    let s1 := r.2
    let s2 := if s1.duration = none then { s1 with duration := get_duration line } else s1
    let s3 := if s2.source = none then { s2 with source := get_source line } else s2
    let s4 := if s3.fps = none then { s3 with fps := get_fps line } else s3
    pnProgress s4 line
  else
    let acc := s.line_acc ++ [c]
    if takeLastN 6 acc = promptTail then
      let s1 := { s with line_acc := acc, echoed := s.echoed ++ acc }
      let s2 := if stdin then { s1 with queued := s1.queued ++ [inp ++ "\n"] } else s1
      (pnNewline s2).2
    else { s with line_acc := acc }

/-- Feed a whole string of bytes through the notifier. -/
def feedStr (s : PNState) (str : String) (stdin : Bool) (inp : String) : PNState :=
  str.data.foldl (fun st c => pnCall st c stdin inp) s

/- Data model: the probe tool's parsed JSON document. Numeric JSON fields
   (duration_ts, nb_frames, width, ...) are integers; fields the source code
   parses with int()/float() are kept as strings. -/

structure FormatRec where
  bit_rate : Option String
  duration : Option String
  deriving DecidableEq

structure StreamRec where
  codec_name : String
  codec_type : String
  pix_fmt : Option String
  duration : Option String
  bit_rate : Option String
  tags : Option (List (String × String))
  r_frame_rate : Option String
  avg_frame_rate : Option String
  duration_ts : Option ℤ
  time_base : Option String
  nb_frames : Option ℤ
  width : Option ℤ
  height : Option ℤ
  coded_width : Option ℤ
  coded_height : Option ℤ
  sample_rate : Option String
  channel_layout : Option String
  field_order : Option String
  display_aspect_ratio : Option String
  deriving DecidableEq

structure ProbeDoc where
  streams : List StreamRec
  format : Option FormatRec
  deriving DecidableEq

def emptyStream : StreamRec :=
  ⟨"", "", none, none, none, none, none, none, none, none, none, none, none, none, none,
   none, none, none, none⟩

/-- dict.get(key, dflt) on a tag mapping. -/
def tagsGet (tags : List (String × String)) (key dflt : String) : String :=
  match tags.find? (fun p => p.1 == key) with
  | some p => p.2
  | none => dflt

/-- Python truthiness of the stream's tags dict: present and non-empty. -/
def tagsTruthy : Option (List (String × String)) → Bool
  | none => false
  | some l => decide (l ≠ [])

/-- calc_bitrate from convert.py. The int-vs-float distinction lives in ℚ;
note the computed branch performs Python true division. -/
def calc_bitrate (d : StreamRec) (a : ProbeDoc) (file_size : ℤ) (duration : ℚ) :
    Except Unit ℚ := do
  let br1 : ℚ ←
    match a.format with
    | some f =>
      match parseIntStr (f.bit_rate.getD "0") with
      | some n => pure ((n : ℚ))
      | none => Except.error ()
    | none => pure 0
  if br1 ≠ 0 then pure br1
  else do
    let br2 : ℚ ←
      if tagsTruthy d.tags then
        match parseIntStr (tagsGet (d.tags.getD []) "BPS-eng" "0") with
        | some n => pure ((n : ℚ))
        | none => Except.error ()
      else pure 0
    if br2 ≠ 0 then pure br2
    else do
      let dur2 : ℚ ←
        if duration ≠ 0 then pure duration
        else
          match d.duration_ts with
          | none => pure 0
          | some ts =>
            match d.time_base with
            | none => pure 0
            | some tb =>
              match splitChar tb '/' with
              | [ta, tbb] => do
                let x ← ofOpt (parseIntStr ta)
                let y ← ofOpt (parseIntStr tbb)
                if y = 0 then Except.error ()
                else pure (((ts * x : ℤ) : ℚ) / (y : ℚ))
              | _ => Except.error ()
      if dur2 ≠ 0 then pure ((file_size : ℚ) * 8 / dur2) else pure 0

/-- Parse a frame-rate field the way calc_fps does: num/den rational, or an
int when no decimal point, or a float; non-int results pass Python round(·, 3). -/
def parseRate (s : String) : Except Unit ℚ :=
  if containsSubstr s "/" then
    match splitChar s '/' with
    | [a, b] => do
      let x ← ofOpt (parseIntStr a)
      let y ← ofOpt (parseIntStr b)
      if y = 0 then Except.error () else pure (roundTo3 ((x : ℚ) / (y : ℚ)))
    | _ => Except.error ()
  else if containsSubstr s "." then
    match parseFloatStr s with
    | some q => pure (roundTo3 q)
    | none => Except.error ()
  else
    match parseIntStr s with
    | some n => pure ((n : ℚ))
    | none => Except.error ()

/-- calc_fps from convert.py. Returns none exactly where the source falls
through with fps still Python None (r/avg fields absent and the tag path
unable to compute). Note: the tags gate here uses "is not None". -/
def calc_fps (d : StreamRec) (duration : ℚ) : Except Unit (Option ℚ) :=
  match d.r_frame_rate with
  | some s => do
    let q ← parseRate s
    pure (some q)
  | none =>
    match d.avg_frame_rate with
    | some s => do
      let q ← parseRate s
      pure (some q)
    | none =>
      match d.tags with
      | none => pure none
      | some tags => do
        let frames ← ofOpt (parseIntStr (tagsGet tags "NUMBER_OF_FRAMES-eng" "0"))
        if frames ≠ 0 ∧ duration ≠ 0 then
          pure (some (roundTo3 ((frames : ℚ) / duration)))
        else pure none

/-- The frame-count ÷ avg-frame-rate fallback inside calc_duration's
video branch (lines 280-290). -/
def videoFramesDuration (d : StreamRec) (tags : List (String × String)) :
    Except Unit String := do
  let frames ← ofOpt (parseIntStr (tagsGet tags "NUMBER_OF_FRAMES-eng" "0"))
  let rateRaw := (d.avg_frame_rate).getD "0"
  let frmPerSec : ℤ ←
    if containsSubstr rateRaw "/" then
      match splitChar rateRaw '/' with
      | [a, b] => do
        let x ← ofOpt (parseIntStr a)
        let y ← ofOpt (parseIntStr b)
        if y = 0 then Except.error () else pure (pyTrunc ((x : ℚ) / (y : ℚ)))
      | _ => Except.error ()
    else ofOpt (parseIntStr rateRaw)
  if frames ≠ 0 ∧ frmPerSec ≠ 0 then
    pure (sec_hum ((frames : ℚ) / (frmPerSec : ℚ)))
  else pure ""

/-- The container-level duration fallback (the elif-format branches). -/
def containerDuration (a : ProbeDoc) : Except Unit String :=
  match a.format with
  | none => pure ""
  | some f =>
    let s := f.duration.getD ""
    if s = "" then pure ""
    else
      match parseFloatStr s with
      | some q => pure (sec_hum q)
      | none => Except.error ()

/-- calc_duration from convert.py: the per-codec-type duration extraction. -/
def calc_duration (d : StreamRec) (a : ProbeDoc) : Except Unit String :=
  if d.codec_type = "video" then
    if tagsTruthy d.tags then do
      let tags := d.tags.getD []
      let d1 := tagsGet tags "DURATION-eng" ""
      let dv := if d1 = "" then tagsGet tags "DURATION" "" else d1
      if dv = "" then videoFramesDuration d tags else pure dv
    else containerDuration a
  else if d.codec_type = "audio" then do
    let durTag : String ←
      if tagsTruthy d.tags then do
        let tags := d.tags.getD []
        let d1 := tagsGet tags "DURATION-eng" ""
        let da := if d1 = "" then tagsGet tags "DURATION" "" else d1
        if da = "" then do
          let bps ← ofOpt (parseIntStr (tagsGet tags "BPS-eng" "0"))
          let nbytes ← ofOpt (parseIntStr (tagsGet tags "NUMBER_OF_BYTES-eng" "0"))
          if bps ≠ 0 ∧ nbytes ≠ 0 then pure (sec_hum ((nbytes : ℚ) * 8 / (bps : ℚ)))
          else pure ""
        else pure da
      else containerDuration a
    if durTag = "" then
      match d.time_base with
      | none => pure ""
      | some tb =>
        match splitChar tb '/' with
        | [ta, tbb] =>
          match d.nb_frames with
          | none => pure ""
          | some nf => do
            let x ← ofOpt (parseIntStr ta)
            let y ← ofOpt (parseIntStr tbb)
            if y = 0 then Except.error ()
            else pure (sec_hum (((nf * x : ℤ) : ℚ) / (y : ℚ)))
        | _ => Except.error ()
    else pure durTag
  else if d.codec_type = "subtitle" then
    if tagsTruthy d.tags then pure (tagsGet (d.tags.getD []) "DURATION-eng" "")
    else pure ""
  else pure ""

/- check_hevc: the stream classifier and plan builder. The loop body's local
   state is threaded explicitly; a raised Python exception or the early return
   at line 403 aborts the fold carrying the state at that point, exactly the
   variable values Python's except/return paths would report. -/

structure InfoResult where
  main_encoder : String
  main_bitrate : ℚ
  main_fps : Option ℚ
  main_resolution : String
  main_duration : String
  cmd_main_stream : String
  cmd_copy_stream : String
  desc : String
  deriving DecidableEq

structure LoopSt where
  i_v : ℕ
  i_a : ℕ
  i_s : ℕ
  cmd_vf : String
  main_encoder : String
  main_bitrate : ℚ
  main_fps : Option ℚ
  main_resolution : String
  main_duration : String
  cmd_main_stream : String
  cmd_copy_stream : String
  desc : String
  deriving DecidableEq

/-- The loop's variable initialisation (line 355; _main_fps starts as int 0). -/
def initSt : LoopSt := ⟨0, 0, 0, "", "", 0, some 0, "", "", "", "", ""⟩

inductive LoopExit where
  | exc : LoopSt → LoopExit
  | early : LoopSt → LoopExit
  deriving DecidableEq

def tupleOf (st : LoopSt) : InfoResult :=
  ⟨st.main_encoder, st.main_bitrate, st.main_fps, st.main_resolution, st.main_duration,
   st.cmd_main_stream, st.cmd_copy_stream, st.desc⟩

structure CheckResult where
  is_valid : Bool
  err : String
  info : InfoResult
  deriving DecidableEq

/-- Rendering of an optional integer field in an f-string (missing gives ""). -/
def optIntStr : Option ℤ → String
  | none => ""
  | some n => toString n

/-- Python numeric repr for desc strings; exact rationals stand in for floats. -/
def pyShowQ (q : ℚ) : String :=
  if q.den = 1 then toString q.num
  else toString (pyTrunc q) ++ "." ++
    String.mk ((fracDigitsAux 30 (|q| - (⌊|q|⌋ : ℚ))).map digitChar)

/-- Lines 370-379: raw duration and bitrate resolution for one stream, the
assert on a non-empty duration included. -/
def streamPrelude (d : StreamRec) (doc : ProbeDoc) (old_size : ℤ) :
    Except Unit (String × ℚ) := do
  let durInt : ℤ ←
    match d.duration with
    | none => pure 0
    | some s =>
      match parseFloatStr s with
      | some q => pure (pyTrunc q)
      | none => Except.error ()
  let b0 : ℤ ←
    match d.bit_rate with
    | none => pure 0
    | some s => if s = "N/A" then pure 0 else ofOpt (parseIntStr s)
  let s1 := if durInt ≠ 0 then sec_hum ((durInt : ℚ)) else ""
  let s2 ← if s1 = "" then calc_duration d doc else pure s1
  if s2 = "" then Except.error ()
  else do
    let br : ℚ ←
      if (b0 : ℚ) = 0 then do
        let dq ← hms2sec s2
        calc_bitrate d doc old_size dq
      else pure ((b0 : ℚ))
    pure (s2, br)

def vfScalePad : String :=
  "scale=1920:-1:force_original_aspect_ratio=decrease,pad=1920:1080:(ow-iw)/2:(oh-ih)/2"

/-- Lines 393-399: parse width and height (short-circuit: the height is only
parsed when the width exceeds 1920) and append the scale-pad filter when both
dimensions exceed the 1920x1080 target. -/
def scalePadStep (st4 : LoopSt) (wS hS : String) : Except LoopExit LoopSt :=
  match parseIntStr wS with
  | none => .error (.exc st4)
  | some w =>
    if 1920 < w then
      match parseIntStr hS with
      | none => .error (.exc st4)
      | some h =>
        if 1080 < h then
          .ok (if st4.cmd_vf = "" then { st4 with cmd_vf := "-vf \"" ++ vfScalePad }
               else { st4 with cmd_vf := st4.cmd_vf ++ "," ++ vfScalePad })
        else .ok st4
    else .ok st4

/-- Lines 380-407: the main-video-stream branch. -/
def mainBranchStep (d : StreamRec) (st : LoopSt) (durS : String) (br : ℚ) :
    Except LoopExit LoopSt :=
  let st1 : LoopSt := { st with
    main_encoder := d.codec_name
    main_bitrate := br
    cmd_main_stream := "-map 0:v:" ++ toString st.i_v ++ " -c:v:" ++ toString st.i_v ++ " hevc_amf " }
  match hms2sec durS with
  | .error _ => .error (.exc st1)
  | .ok dq =>
    match calc_fps d dq with
    | .error _ => .error (.exc st1)
    | .ok fpsV =>
      let st2 := { st1 with main_fps := fpsV }
      match fpsV with
      | none => .error (.exc st2)
      | some f =>
        let st3 :=
          if 32 < f then
            { st2 with cmd_vf := if st2.cmd_vf = "" then "-vf \"fps=30" else st2.cmd_vf ++ ",fps=30" }
          else st2
        let res0 := optIntStr d.width ++ "x" ++ optIntStr d.height
        let res :=
          if res0.length < 5 then optIntStr d.coded_width ++ "x" ++ optIntStr d.coded_height
          else res0
        let st4 := { st3 with main_resolution := res }
        match splitChar res 'x' with
        | [wS, hS] =>
          (match scalePadStep st4 wS hS with
           | .error e => .error e
           | .ok st5 =>
             if br = 0 ∨ durS = "" ∨ f = 0 then .error (.early st5)
             else
               .ok { st5 with
                 main_duration := durS
                 desc := st5.desc ++ durS ++ ", " ++ d.codec_type ++ ":" ++ d.codec_name ++
                   " " ++ (d.pix_fmt.getD "") ++ "(" ++ (d.field_order.getD "") ++ "), " ++
                   (d.display_aspect_ratio.getD "") ++ " " ++ st5.main_resolution ++ "@" ++
                   pyShowQ f ++ "fps " ++ bitrate_hum br ++ "\n"
                 i_v := st5.i_v + 1 })
        | _ => .error (.exc st4)

/-- Lines 408-441: the secondary-stream branches (copy/convert/drop). -/
def elseBranchStep (d : StreamRec) (st : LoopSt) (br : ℚ) : LoopSt :=
  let pix := d.pix_fmt.getD "N/A"
  if d.codec_type = "video" then
    if pix ≠ "yuv420p" then { st with i_v := st.i_v + 1 }
    else
      { st with
        cmd_copy_stream := st.cmd_copy_stream ++ "-map 0:v:" ++ toString st.i_v ++
          " -c:v:" ++ toString st.i_v ++ " copy "
        i_v := st.i_v + 1 }
  else if d.codec_type = "audio" then
    { st with
      cmd_copy_stream := st.cmd_copy_stream ++
        (if d.codec_name ≠ "aac" then
          "-map 0:a:" ++ toString st.i_a ++ " -c:a:" ++ toString st.i_a ++ " aac -async 1 -apad 1 "
         else "-map 0:a:" ++ toString st.i_a ++ " -c:a:" ++ toString st.i_a ++ " copy ")
      desc := st.desc ++ d.codec_type ++ ":" ++ d.codec_name ++ " " ++ (d.sample_rate.getD "") ++
        " " ++ (d.channel_layout.getD "") ++ " " ++ bitrate_hum br ++ "\n"
      i_a := st.i_a + 1 }
  else if d.codec_type = "subtitle" then
    { st with
      cmd_copy_stream := st.cmd_copy_stream ++ "-map 0:s:" ++ toString st.i_s ++
        " -c:s:" ++ toString st.i_s ++ " " ++ "copy "
      desc := st.desc ++ d.codec_type ++ ":" ++ d.codec_name ++ " " ++ bitrate_hum br ++ "\n"
      i_s := st.i_s + 1 }
  else st

/-- One iteration of the stream loop (lines 369-441). -/
def streamStep (doc : ProbeDoc) (old_size : ℤ) (st : LoopSt) (d : StreamRec) :
    Except LoopExit LoopSt :=
  match streamPrelude d doc old_size with
  | .error _ => .error (.exc st)
  | .ok p =>
    if st.main_encoder = "" ∧ d.codec_type = "video" ∧ d.codec_name ≠ "mjpeg" then
      mainBranchStep d st p.1 p.2
    else .ok (elseBranchStep d st p.2)

def runStreams (doc : ProbeDoc) (old_size : ℤ) : Except LoopExit LoopSt :=
  List.foldlM (streamStep doc old_size) initSt doc.streams

/-- Lines 442-446: close the filter clause and prepend it to the main fragment. -/
def finalizeVf (st : LoopSt) : LoopSt :=
  if st.cmd_vf ≠ "" then
    let vf := st.cmd_vf ++ "\" "
    let cm0 := vf ++ st.cmd_main_stream
    let cm := if containsSubstr vf "scale=1920" then cm0 ++ " -s 1920x1080 " else cm0
    { st with cmd_vf := vf, cmd_main_stream := cm }
  else st

/-- Python truthiness of the _main_fps variable (None, 0 and 0.0 are falsy). -/
def fpsTruthy : Option ℚ → Bool
  | none => false
  | some q => decide (q ≠ 0)

/-- Line 447: the all-of-seven truthiness check. -/
def validity (st : LoopSt) : Bool :=
  decide (st.main_encoder ≠ "") && decide (st.main_bitrate ≠ 0) && fpsTruthy st.main_fps &&
  decide (st.main_resolution ≠ "") && decide (st.main_duration ≠ "") &&
  decide (st.cmd_main_stream ≠ "") && decide (st.cmd_copy_stream ≠ "")

/-- check_hevc from convert.py, taken at the point where the external probe has
run: probe is the parse of its stdout (error = json.loads raised), stderr its
diagnostic text, old_size the file's byte size. The missing-file fast path and
the empty-stdout path happen before/around this core. -/
def check_hevc (probe : Except Unit ProbeDoc) (stderr : String) (old_size : ℤ) :
    CheckResult :=
  match probe with
  | .error _ => ⟨false, stderr, tupleOf initSt⟩
  | .ok doc =>
    match runStreams doc old_size with
    | .error (.exc st) => ⟨false, stderr, tupleOf st⟩
    | .error (.early st) => ⟨false, "empty main_bitrate/duration/fps", tupleOf st⟩
    | .ok st =>
      let st2 := finalizeVf st
      ⟨validity st2, "", tupleOf st2⟩

/-- The batch driver's skip-already-converted duration comparison (line 536):
abs applied to a boolean comparison, then compared with 2. -/
def convertedSkipCond (dur mainDur : String) : Except Unit Bool := do
  let a ← hms2sec dur
  let b ← hms2sec mainDur
  pure (decide (|(if a < b then (1 : ℚ) else 0)| < 2))

instance {ε α : Type} [DecidableEq ε] [DecidableEq α] : DecidableEq (Except ε α) :=
  fun a b =>
    match a, b with
    | .ok x, .ok y =>
      if h : x = y then isTrue (by rw [h])
      else isFalse (by intro hc; injection hc; contradiction)
    | .error x, .error y =>
      if h : x = y then isTrue (by rw [h])
      else isFalse (by intro hc; injection hc; contradiction)
    | .ok _, .error _ => isFalse (by intro hc; injection hc)
    | .error _, .ok _ => isFalse (by intro hc; injection hc)

/- Spec-side definition for the C2 refinement comparison. -/

def firstNonemptyChain : List (Unit → Except Unit String) → Except Unit String
  | [] => pure ""
  | e :: rest => do
    let s ← e ()
    if s = "" then firstNonemptyChain rest else pure s

/-- Amended-spec chain for a video stream's duration: when the stream carries a
non-empty tag mapping, try DURATION-eng, then DURATION, then frame-count ÷
avg-frame-rate, first non-empty wins; the container-level duration field is
consulted only when the stream has no non-empty tag mapping. -/
def video_duration_chain (d : StreamRec) (a : ProbeDoc) : Except Unit String :=
  if tagsTruthy d.tags then
    firstNonemptyChain
      [fun _ => pure (tagsGet (d.tags.getD []) "DURATION-eng" ""),
       fun _ => pure (tagsGet (d.tags.getD []) "DURATION" ""),
       fun _ => videoFramesDuration d (d.tags.getD [])]
  else containerDuration a

/- Concrete probe documents used by counterexamples and witnesses. -/

/-- A fully resolving main video stream (h264, 60 s, 1 Mb/s, 25 fps, 1280x720). -/
def vidStream : StreamRec := { emptyStream with
  codec_name := "h264"
  codec_type := "video"
  pix_fmt := some "yuv420p"
  duration := some "60.000000"
  bit_rate := some "1000000"
  r_frame_rate := some "25/1"
  avg_frame_rate := some "25/1"
  width := some 1280
  height := some 720 }

/-- A fully resolving secondary aac audio stream. -/
def audStream : StreamRec := { emptyStream with
  codec_name := "aac"
  codec_type := "audio"
  duration := some "60.000000"
  bit_rate := some "128000"
  sample_rate := some "48000"
  channel_layout := some "stereo" }

/-- A document whose only stream is the fully resolving main video stream. -/
def docSolo : ProbeDoc := ⟨[vidStream], some ⟨some "1000000", some "60.000000"⟩⟩

/-- The same document with one extra audio stream. -/
def docPair : ProbeDoc := ⟨[vidStream, audStream], some ⟨some "1000000", some "60.000000"⟩⟩

/-- A video stream with no resolvable duration anywhere: the assert at line 377
raises on it. -/
def docBad : ProbeDoc := ⟨[{ emptyStream with codec_name := "h264", codec_type := "video" }], none⟩

/-- A video stream whose tag mapping is non-empty but holds no duration hint. -/
def dC2 : StreamRec := { emptyStream with
  codec_type := "video"
  codec_name := "h264"
  tags := some [("language", "eng")] }

/-- A document whose container-level duration field is present (60 s). -/
def aC2 : ProbeDoc := ⟨[], some ⟨none, some "60.0"⟩⟩

/-- The ok-payload of a loop run (initSt on the exit paths); used to name the
final loop state of a concrete run. -/
def okState (e : Except LoopExit LoopSt) : LoopSt :=
  match e with
  | .ok s => s
  | .error _ => initSt

/-- Loop invariant: once the main encoder is chosen, the main stream's derived
fields are all truthy and its command fragment is non-empty. -/
def Inv (st : LoopSt) : Prop :=
  st.main_encoder ≠ "" →
    (st.main_bitrate ≠ 0 ∧ fpsTruthy st.main_fps = true ∧ st.main_resolution ≠ "" ∧
     st.main_duration ≠ "" ∧ st.cmd_main_stream ≠ "")

/- Theorems. The four arithmetic Rat primitives are irreducible by default;
they are made semireducible here so that concrete runs of the embedded
functions evaluate inside decidability checks. -/

attribute [local semireducible] Rat.mul Rat.add Rat.inv Rat.sub
set_option maxRecDepth 10000

theorem str_append_ne_right (a b : String) (h : b ≠ "") : a ++ b ≠ "" := by
  intro hc
  apply h
  have hd := congrArg String.data hc
  simp only [String.data_append] at hd
  rcases List.append_eq_nil.mp hd with ⟨h1, h2⟩
  cases b
  simp_all [String.data]

theorem str_append_ne_left (a b : String) (h : a ≠ "") : a ++ b ≠ "" := by
  intro hc
  apply h
  have hd := congrArg String.data hc
  simp only [String.data_append] at hd
  rcases List.append_eq_nil.mp hd with ⟨h1, h2⟩
  cases a
  simp_all [String.data]

theorem pnProgress_lines (s : PNState) (l : List Char) : (pnProgress s l).lines = s.lines := by
  unfold pnProgress
  cases h : searchProgress l <;> simp [h]

theorem pnCall_prompt_eq (s : PNState) (c : Char) (stdin : Bool) (inp : String)
    (hc : ¬(c = '\r' ∨ c = '\n'))
    (hp : takeLastN 6 (s.line_acc ++ [c]) = promptTail) :
    pnCall s c stdin inp =
      { s with
        lines := takeLast2 (s.lines ++ [s.line_acc ++ [c]])
        line_acc := []
        echoed := s.echoed ++ (s.line_acc ++ [c])
        queued := s.queued ++ (if stdin then [inp ++ "\n"] else []) } := by
  unfold pnCall
  rw [if_neg hc, if_pos hp]
  unfold pnNewline
  cases stdin <;> simp

theorem pnCall_noflush (s : PNState) (c : Char) (stdin : Bool) (inp : String)
    (hc : ¬(c = '\r' ∨ c = '\n'))
    (hp : ¬(takeLastN 6 (s.line_acc ++ [c]) = promptTail)) :
    pnCall s c stdin inp = { s with line_acc := s.line_acc ++ [c] } := by
  unfold pnCall
  rw [if_neg hc, if_neg hp]

theorem pnCall_sep_lines (s : PNState) (c : Char) (stdin : Bool) (inp : String)
    (hc : c = '\r' ∨ c = '\n') :
    (pnCall s c stdin inp).lines = takeLast2 (s.lines ++ [s.line_acc]) := by
  unfold pnCall
  rw [if_pos hc, pnProgress_lines]
  split <;> split <;> split <;> simp [pnNewline]

theorem scalePadStep_fields (st4 : LoopSt) (wS hS : String) (st5 : LoopSt)
    (h : scalePadStep st4 wS hS = Except.ok st5) :
    st5.main_encoder = st4.main_encoder ∧ st5.main_bitrate = st4.main_bitrate ∧
    st5.main_fps = st4.main_fps ∧ st5.main_resolution = st4.main_resolution ∧
    st5.main_duration = st4.main_duration ∧ st5.cmd_main_stream = st4.cmd_main_stream ∧
    st5.cmd_copy_stream = st4.cmd_copy_stream := by
  unfold scalePadStep at h
  split at h
  · exact absurd h (by simp)
  · split at h
    · split at h
      · exact absurd h (by simp)
      · split at h
        · injection h with h'
          subst h'
          split <;> exact ⟨rfl, rfl, rfl, rfl, rfl, rfl, rfl⟩
        · injection h with h'
          subst h'
          exact ⟨rfl, rfl, rfl, rfl, rfl, rfl, rfl⟩
    · injection h with h'
      subst h'
      exact ⟨rfl, rfl, rfl, rfl, rfl, rfl, rfl⟩

theorem mainBranch_ok (d : StreamRec) (st : LoopSt) (durS : String) (br : ℚ) (st' : LoopSt)
    (h : mainBranchStep d st durS br = Except.ok st') :
    st'.main_bitrate ≠ 0 ∧ fpsTruthy st'.main_fps = true ∧ st'.main_resolution ≠ "" ∧
    st'.main_duration ≠ "" ∧ st'.cmd_main_stream ≠ "" := by
  unfold mainBranchStep at h
  dsimp only [] at h
  repeat' split at h
  all_goals try exact Except.noConfusion h
  all_goals (
    injection h with h'
    subst h'
    rename scalePadStep _ _ _ = Except.ok _ => hsc
    rename ¬(_ ∨ _) => hchk
    obtain ⟨e1, e2, e3, e4, e5, e6, e7⟩ := scalePadStep_fields _ _ _ _ hsc
    push_neg at hchk
    obtain ⟨hbr, hdur, hf⟩ := hchk
    dsimp only []
    refine ⟨?_, ?_, ?_, hdur, ?_⟩
    · rw [e2]
      try split
      all_goals exact hbr
    · rw [e3]
      try split
      all_goals (simp only [fpsTruthy, decide_eq_true_eq]; exact hf)
    · rw [e4]
      dsimp only []
      try split
      all_goals exact str_append_ne_left _ _ (str_append_ne_right _ _ (by decide))
    · rw [e6]
      try split
      all_goals exact str_append_ne_right _ _ (by decide))

theorem elseBranch_main_fields (d : StreamRec) (st : LoopSt) (br : ℚ) :
    (elseBranchStep d st br).main_encoder = st.main_encoder ∧
    (elseBranchStep d st br).main_bitrate = st.main_bitrate ∧
    (elseBranchStep d st br).main_fps = st.main_fps ∧
    (elseBranchStep d st br).main_resolution = st.main_resolution ∧
    (elseBranchStep d st br).main_duration = st.main_duration ∧
    (elseBranchStep d st br).cmd_main_stream = st.cmd_main_stream := by
  unfold elseBranchStep
  dsimp only []
  repeat' split
  all_goals exact ⟨rfl, rfl, rfl, rfl, rfl, rfl⟩

theorem stepInv (doc : ProbeDoc) (old : ℤ) (st st' : LoopSt) (d : StreamRec)
    (hInv : Inv st) (hs : streamStep doc old st d = Except.ok st') : Inv st' := by
  unfold streamStep at hs
  split at hs
  · exact Except.noConfusion hs
  · split at hs
    · intro _
      exact mainBranch_ok _ _ _ _ _ hs
    · injection hs with h'
      subst h'
      obtain ⟨e1, e2, e3, e4, e5, e6⟩ := elseBranch_main_fields d st _
      intro henc
      rw [e1] at henc
      obtain ⟨f1, f2, f3, f4, f5⟩ := hInv henc
      rw [e2, e3, e4, e5, e6]
      exact ⟨f1, f2, f3, f4, f5⟩

theorem foldInv (doc : ProbeDoc) (old : ℤ) :
    ∀ (l : List StreamRec) (st st' : LoopSt), Inv st →
      List.foldlM (streamStep doc old) st l = Except.ok st' → Inv st' := by
  intro l
  induction l with
  | nil =>
    intro st st' h hf
    simp only [List.foldlM_nil, pure, Except.pure] at hf
    injection hf with h'
    subst h'
    exact h
  | cons d rest ih =>
    intro st st' h hf
    rw [List.foldlM_cons] at hf
    cases hstep : streamStep doc old st d with
    | error e =>
      rw [hstep] at hf
      simp only [bind, Except.bind] at hf
      exact Except.noConfusion hf
    | ok s1 =>
      rw [hstep] at hf
      simp only [bind, Except.bind] at hf
      exact ih s1 st' (stepInv doc old st s1 d h hstep) hf

theorem finalize_fields (st : LoopSt) :
    (finalizeVf st).main_encoder = st.main_encoder ∧
    (finalizeVf st).main_bitrate = st.main_bitrate ∧
    (finalizeVf st).main_fps = st.main_fps ∧
    (finalizeVf st).main_resolution = st.main_resolution ∧
    (finalizeVf st).main_duration = st.main_duration ∧
    (finalizeVf st).cmd_copy_stream = st.cmd_copy_stream ∧
    (st.cmd_main_stream ≠ "" → (finalizeVf st).cmd_main_stream ≠ "") := by
  unfold finalizeVf
  dsimp only []
  repeat' split
  all_goals refine ⟨rfl, rfl, rfl, rfl, rfl, rfl, fun h => ?_⟩
  · exact str_append_ne_right _ _ (by decide)
  · exact str_append_ne_right _ _ h
  · exact h

theorem size_humGo_select : ∀ (k : ℕ) (us : List String) (n : ℚ) (neg : Bool) (old : ℤ)
    (hlen : k < us.length), n < 1024 ^ (k + 1) → (k = 0 ∨ (1024 : ℚ) ^ k ≤ n) →
    size_humGo neg old 1024 n us =
      (if neg then "-" else "") ++ formatFixed2 (n / 1024 ^ k) ++ us.getD k "" := by
  intro k
  induction k with
  | zero =>
    intro us n neg old hlen h1 _
    match us with
    | u :: rest =>
      unfold size_humGo
      rw [if_pos (by rw [div_lt_one (by norm_num)]; simpa using h1)]
      simp
  | succ k ih =>
    intro us n neg old hlen h1 h2
    match us with
    | u :: rest =>
      have hge : (1024 : ℚ) ^ (k + 1) ≤ n := by
        rcases h2 with h2 | h2
        · omega
        · exact h2
      have hpow : (1 : ℚ) ≤ 1024 ^ k := one_le_pow₀ (by norm_num)
      unfold size_humGo
      rw [if_neg (by
        rw [div_lt_one (by norm_num), not_lt]
        calc (1024 : ℚ) ≤ 1024 ^ (k + 1) := by
              calc (1024 : ℚ) = 1024 ^ 1 := (pow_one _).symm
              _ ≤ 1024 ^ (k + 1) := pow_le_pow_right₀ (by norm_num) (by omega)
          _ ≤ n := hge)]
      rw [ih rest (n / 1024) neg old (by simpa using hlen)
        (by rw [div_lt_iff₀ (by norm_num)]; calc n < 1024 ^ (k + 1 + 1) := h1
              _ = 1024 ^ (k + 1) * 1024 := by ring
          )
        (Or.inr (by rw [le_div_iff₀ (by norm_num)]; calc (1024:ℚ) ^ k * 1024 = 1024 ^ (k+1) := by ring
              _ ≤ n := hge))]
      have hdd : n / 1024 / 1024 ^ k = n / 1024 ^ (k + 1) := by
        rw [div_div]
        congr 1
        ring
      rw [hdd]
      simp

theorem size_humGo_exhaust : ∀ (us : List String) (n : ℚ) (neg : Bool) (old : ℤ),
    (1024 : ℚ) ^ us.length ≤ n →
    size_humGo neg old 1024 n us = (if neg then "-" else "") ++ toString old := by
  intro us
  induction us with
  | nil => intro n neg old _; rfl
  | cons u rest ih =>
    intro n neg old hge
    have hpow : (1 : ℚ) ≤ 1024 ^ rest.length := one_le_pow₀ (by norm_num)
    unfold size_humGo
    rw [if_neg (by
      rw [div_lt_one (by norm_num), not_lt]
      calc (1024 : ℚ) ≤ 1024 ^ (rest.length + 1) := by
            calc (1024 : ℚ) = 1024 ^ 1 := (pow_one _).symm
            _ ≤ 1024 ^ (rest.length + 1) := pow_le_pow_right₀ (by norm_num) (by omega)
        _ ≤ n := by simpa using hge)]
    exact ih (n / 1024) neg old (by
      rw [le_div_iff₀ (by norm_num)]
      calc (1024:ℚ) ^ rest.length * 1024 = 1024 ^ (rest.length + 1) := by ring
        _ ≤ n := by simpa using hge)

/-- C1 counterexample: the claim asserts validity = true whenever the main video
stream's bitrate, duration and fps resolve, in particular for a document whose
only stream is the main video stream. On exactly such a document (docSolo: all
three resolve, as the returned info shows) check_hevc yields validity = false,
because the copy-stream fragment stays empty and the line-447 check requires it
to be non-empty. -/
theorem c1_counterexample :
    (check_hevc (.ok docSolo) "" 1000000).is_valid = false ∧
    (check_hevc (.ok docSolo) "" 1000000).info.main_bitrate ≠ 0 ∧
    (check_hevc (.ok docSolo) "" 1000000).info.main_duration ≠ "" ∧
    fpsTruthy (check_hevc (.ok docSolo) "" 1000000).info.main_fps = true ∧
    (check_hevc (.ok docSolo) "" 1000000).info.cmd_main_stream ≠ "" ∧
    (check_hevc (.ok docSolo) "" 1000000).info.cmd_copy_stream = "" := by decide

/-- C1 amended: when the stream loop completes without an exception or early
return, a main video stream was chosen (which forces its bitrate, fps, duration,
resolution and fragment to have resolved: Inv), and at least one secondary
stream contributed to the copy-stream fragment, then check_hevc returns
validity = true and both command fragments are non-empty. -/
theorem c1_amended (doc : ProbeDoc) (stderr : String) (old_size : ℤ) (st : LoopSt)
    (hrun : runStreams doc old_size = Except.ok st)
    (henc : st.main_encoder ≠ "")
    (hcopy : st.cmd_copy_stream ≠ "") :
    (check_hevc (Except.ok doc) stderr old_size).is_valid = true ∧
    (check_hevc (Except.ok doc) stderr old_size).info.cmd_main_stream ≠ "" ∧
    (check_hevc (Except.ok doc) stderr old_size).info.cmd_copy_stream ≠ "" := by
  have hInv : Inv st :=
    foldInv doc old_size doc.streams initSt st (fun h => absurd rfl h) hrun
  obtain ⟨f1, f2, f3, f4, f5⟩ := hInv henc
  obtain ⟨g1, g2, g3, g4, g5, g6, g7⟩ := finalize_fields st
  unfold check_hevc
  dsimp only []
  simp only [hrun]
  dsimp only [tupleOf]
  refine ⟨?_, g7 f5, by rw [g6]; exact hcopy⟩
  unfold validity
  rw [g1, g2, g3, g4, g5, g6]
  simp only [Bool.and_eq_true, decide_eq_true_eq]
  exact ⟨⟨⟨⟨⟨⟨henc, f1⟩, f2⟩, f3⟩, f4⟩, g7 f5⟩, hcopy⟩

/-- C1 witness: on the two-stream document docPair (main video plus one aac
audio stream) the amended claim applies and check_hevc is valid with both
fragments non-empty. -/
theorem c1_witness :
    (check_hevc (Except.ok docPair) "" 1000000).is_valid = true ∧
    (check_hevc (Except.ok docPair) "" 1000000).info.cmd_main_stream ≠ "" ∧
    (check_hevc (Except.ok docPair) "" 1000000).info.cmd_copy_stream ≠ "" :=
  c1_amended docPair "" 1000000 (okState (runStreams docPair 1000000))
    (by decide) (by decide) (by decide)

/-- C2 counterexample: the claim asserts the container-level duration field is
still consulted when the tag-based sources fail. dC2 has a non-empty tag
mapping with no duration hints; aC2's container carries duration 60 s. The
code returns the empty duration, yet with the tags removed the very same
container field yields "00:01:00.0" - so it was not consulted, refuting the
claimed fallback chain. -/
theorem c2_counterexample :
    calc_duration dC2 aC2 = Except.ok "" ∧
    calc_duration { dC2 with tags := none } aC2 = Except.ok "00:01:00.0" := by decide

/-- C2 amended: for video streams calc_duration implements the chain
DURATION-eng tag, then DURATION tag, then frame-count over avg-fps, first
non-empty wins, with the container-level duration consulted only when the
stream carries no non-empty tag mapping (the elif at line 291). -/
theorem c2_video_duration_refines (d : StreamRec) (a : ProbeDoc) (h : d.codec_type = "video") :
    calc_duration d a = video_duration_chain d a := by
  unfold calc_duration video_duration_chain
  rw [if_pos h]
  by_cases ht : tagsTruthy d.tags
  · rw [if_pos ht, if_pos ht]
    unfold firstNonemptyChain firstNonemptyChain firstNonemptyChain
    simp only [bind, Except.bind, pure, Except.pure]
    by_cases h1 : tagsGet (d.tags.getD []) "DURATION-eng" "" = ""
    · rw [if_pos h1]
      by_cases h2 : tagsGet (d.tags.getD []) "DURATION" "" = ""
      · rw [if_pos h2]
        cases hF : videoFramesDuration d (d.tags.getD []) with
        | error e => simp [h1, h2]
        | ok s3 =>
          by_cases h3 : s3 = "" <;> simp [h1, h2, h3, firstNonemptyChain, pure, Except.pure]
      · simp [h1, h2]
    · simp [h1]
  · rw [if_neg ht, if_neg ht]

/-- C2 witness: the refinement applied to the concrete video stream dC2. -/
theorem c2_witness : calc_duration dC2 aC2 = video_duration_chain dC2 aC2 :=
  c2_video_duration_refines dC2 aC2 rfl

/-- C3: for any two duration strings hms2sec accepts, the batch driver's
skip-already-converted condition abs(hms2sec(a) < hms2sec(b)) < 2 evaluates to
true: abs of the boolean comparison is 0 or 1, both below 2, so a valid
converted file is skipped regardless of how far the durations differ. -/
theorem c3_skip_condition_constant (d1 d2 : String) (a b : ℚ)
    (h1 : hms2sec d1 = Except.ok a) (h2 : hms2sec d2 = Except.ok b) :
    convertedSkipCond d1 d2 = Except.ok true := by
  unfold convertedSkipCond
  rw [h1]
  simp only [bind, Except.bind]
  rw [h2]
  simp only [bind, Except.bind]
  congr 1
  by_cases hab : a < b <;> simp [hab]

/-- C3 witness: one minute versus one hour still satisfies the skip condition. -/
theorem c3_witness : convertedSkipCond "00:01:00.0" "01:00:00.0" = Except.ok true :=
  c3_skip_condition_constant "00:01:00.0" "01:00:00.0" 60 3600 (by decide) (by decide)

/-- C4 counterexample: the claim asserts that a buffer flushed by the
interactive-prompt suffix undergoes the same extraction attempts as a
separator-terminated line. Feeding the bytes of "Duration: 00:05:30.00 [y/N] "
echoes the prompt, queues the reply, clears the buffer and stores the line in
the history - but the duration stays unset even though get_duration on that
very line succeeds with 330 s: the prompt path calls newline() without any
extraction. -/
theorem c4_counterexample :
    (feedStr pnInit "Duration: 00:05:30.00 [y/N] " true "y").duration = none ∧
    (feedStr pnInit "Duration: 00:05:30.00 [y/N] " true "y").line_acc = [] ∧
    (feedStr pnInit "Duration: 00:05:30.00 [y/N] " true "y").lines =
      ["Duration: 00:05:30.00 [y/N] ".data] ∧
    (feedStr pnInit "Duration: 00:05:30.00 [y/N] " true "y").echoed =
      "Duration: 00:05:30.00 [y/N] ".data ∧
    (feedStr pnInit "Duration: 00:05:30.00 [y/N] " true "y").queued = ["y\n"] ∧
    get_duration "Duration: 00:05:30.00 [y/N] ".data = some 330 := by decide

/-- C4 amended: when a non-separator byte makes the accumulation buffer end in
the prompt suffix, the buffer is echoed to the output stream, a reply line plus
trailing newline is queued when an input channel was supplied, and the buffer
is flushed into the bounded history and cleared - with no extraction attempts:
duration, source, fps and the progress display are left untouched. -/
theorem c4_prompt_flush (s : PNState) (c : Char) (stdin : Bool) (inp : String)
    (hc : ¬(c = '\r' ∨ c = '\n'))
    (hp : takeLastN 6 (s.line_acc ++ [c]) = promptTail) :
    pnCall s c stdin inp =
      { s with
        lines := takeLast2 (s.lines ++ [s.line_acc ++ [c]])
        line_acc := []
        echoed := s.echoed ++ (s.line_acc ++ [c])
        queued := s.queued ++ (if stdin then [inp ++ "\n"] else []) } :=
  pnCall_prompt_eq s c stdin inp hc hp

/-- C4 witness: completing "Overwrite? [y/N] " with the final space triggers
exactly the echo-read-flush cycle. -/
theorem c4_witness :
    pnCall { pnInit with line_acc := "Overwrite? [y/N]".data } ' ' true "y" =
      ⟨["Overwrite? [y/N] ".data], [], none, none, none, false, none,
       "Overwrite? [y/N] ".data, ["y\n"]⟩ := by
  rw [c4_prompt_flush { pnInit with line_acc := "Overwrite? [y/N]".data } ' ' true "y"
    (by decide) (by decide)]
  decide

/-- C5 code-bug evidence: calc_bitrate is annotated -> int and the spec calls
the derived bitrate an integer, but the computed branch performs Python true
division. With no container bitrate, no BPS-eng tag, a 1-byte file and a 3 s
duration it returns 8/3 bits per second, whose denominator is not 1. -/
theorem c5_code_bug :
    calc_bitrate emptyStream ⟨[], none⟩ 1 3 = Except.ok (8 / 3 : ℚ) ∧
    ((8 / 3 : ℚ)).den ≠ 1 := by decide

/-- C6: feeding a completed line holding "Duration: 00:05:30.00" and "29.97 fps",
then a completed line holding "time=00:01:00.00", creates a progress display in
frames whose position is 60 x round(29.97) = 1800 out of a total 330 x 30 = 9900
(the unit string tqdm receives is " frames"). -/
theorem c6_progress_frames :
    (feedStr (feedStr pnInit "Duration: 00:05:30.00, 29.97 fps\n" false "")
        "time=00:01:00.00\n" false "").pbar = some ⟨none, some 9900, " frames", 1800⟩ ∧
    (feedStr (feedStr pnInit "Duration: 00:05:30.00, 29.97 fps\n" false "")
        "time=00:01:00.00\n" false "").duration = some 330 ∧
    (feedStr (feedStr pnInit "Duration: 00:05:30.00, 29.97 fps\n" false "")
        "time=00:01:00.00\n" false "").fps = some 30 := by decide

/-- C7: any exception inside the stream-parsing loop is caught by check_hevc,
which then returns validity = false with the probe tool's stderr text as the
error and the loop state at the raise point as the info tuple; the embedding
being a total function witnesses that nothing propagates to the caller. -/
theorem c7_exception_caught (doc : ProbeDoc) (stderr : String) (old_size : ℤ) (st : LoopSt)
    (h : runStreams doc old_size = Except.error (LoopExit.exc st)) :
    check_hevc (Except.ok doc) stderr old_size = ⟨false, stderr, tupleOf st⟩ := by
  simp [check_hevc, h]

/-- C7 witness: docBad's video stream has no resolvable duration, the line-377
assert raises, and check_hevc reports the supplied stderr text. -/
theorem c7_witness :
    check_hevc (Except.ok docBad) "probe stderr text" 5 =
      ⟨false, "probe stderr text", tupleOf initSt⟩ :=
  c7_exception_caught docBad "probe stderr text" 5 initSt (by decide)

/-- C8 counterexample: the claim says an input whose magnitude stays at or above
1 YB is returned as the original integer string, also for negative inputs. For
-(1024^9) the code instead prepends a minus sign to the already-signed Python
str of the original value, doubling the sign. -/
theorem c8_counterexample :
    size_hum (-(1024 ^ 9)) = "--1237940039285380274899124224" ∧
    toString (-(1024 ^ 9) : ℤ) = "-1237940039285380274899124224" := by decide

/-- C8 amended: size_hum maps a byte count to the largest unit in B..YB where
the scaled value is below the base, with two decimals and the sign preserved
(the documented examples included); when the magnitude is still at least
1024^9 the result is the sign prefix concatenated with Python str of the
original integer - which doubles the minus sign for negative inputs and is the
original integer as a string only for non-negative inputs. -/
theorem c8_size_hum_amended :
    (size_hum 1023 = "1023.00B" ∧ size_hum 1024 = "1.00KB" ∧ size_hum (-2048) = "-2.00KB") ∧
    (∀ (n : ℤ) (k : ℕ), k ≤ 8 → ((|n| : ℤ) : ℚ) < 1024 ^ (k + 1) →
      (k = 0 ∨ (1024 : ℚ) ^ k ≤ ((|n| : ℤ) : ℚ)) →
      size_hum n = (if n < 0 then "-" else "") ++
        formatFixed2 (((|n| : ℤ) : ℚ) / 1024 ^ k) ++ sizeUnits.getD k "") ∧
    (∀ n : ℤ, (1024 : ℚ) ^ 9 ≤ ((|n| : ℤ) : ℚ) →
      size_hum n = (if n < 0 then "-" else "") ++ toString n) := by
  refine ⟨⟨by decide, by decide, by decide⟩, ?_, ?_⟩
  · intro n k hk h1 h2
    unfold size_hum
    rw [size_humGo_select k sizeUnits _ _ _ (by simp [sizeUnits]; omega) h1 h2]
    congr 1
    by_cases hn : n < 0 <;> simp [hn]
  · intro n hge
    unfold size_hum
    rw [size_humGo_exhaust sizeUnits _ _ _ (by simpa [sizeUnits] using hge)]
    congr 1
    by_cases hn : n < 0 <;> simp [hn]

/-- C8 witness: the unit-selection part applied at 1024 (one KB) and the
at-least-1-YB part applied at -(1024^9). -/
theorem c8_witness :
    (size_hum 1024 = (if (1024 : ℤ) < 0 then "-" else "") ++
      formatFixed2 (((|(1024 : ℤ)| : ℤ) : ℚ) / 1024 ^ 1) ++ sizeUnits.getD 1 "") ∧
    (size_hum (-(1024 ^ 9)) =
      (if (-(1024 ^ 9) : ℤ) < 0 then "-" else "") ++ toString (-(1024 ^ 9) : ℤ)) :=
  ⟨c8_size_hum_amended.2.1 1024 1 (by norm_num) (by norm_num) (Or.inr (by norm_num)),
   c8_size_hum_amended.2.2 (-(1024 ^ 9)) (by norm_num)⟩

/-- C9: shorten returns the string unchanged when it fits, a hard prefix cut
when the budget is at most the placeholder's length, and otherwise a
floor-half head plus placeholder plus ceiling-half tail; the documented
examples hold verbatim. -/
theorem c9_shorten_spec :
    (∀ (s : String) (n : ℕ), s.length ≤ n → shorten s n = s) ∧
    (∀ (s : String) (n : ℕ), n < s.length → n ≤ 3 → shorten s n = strTake s n) ∧
    (∀ (s : String) (n : ℕ), n < s.length → 3 < n →
      shorten s n = strTake s ((n - 3) / 2) ++ "..." ++ pyTailSlice s ((n - 3) - (n - 3) / 2)) ∧
    shorten "123456789" 5 = "1...9" ∧ shorten "123456789" 6 = "1...89" ∧
    shorten "123456789" 7 = "12...89" ∧ shorten "123456789" 3 = "123" ∧
    shorten "123456789" 0 = "" ∧ shorten "123456789" 10 = "123456789" := by
  refine ⟨?_, ?_, ?_, by decide, by decide, by decide, by decide, by decide, by decide⟩
  · intro s n h
    unfold shorten
    rw [if_pos h]
  · intro s n h1 h2
    unfold shorten
    rw [if_neg (by omega), if_pos (by show n ≤ ("..." : String).length; exact h2)]
  · intro s n h1 h2
    unfold shorten
    have h3 : ("..." : String).length = 3 := rfl
    rw [if_neg (by omega), if_neg (by rw [h3]; omega), h3]

/-- C9 witness: the three general clauses applied at concrete inputs. -/
theorem c9_witness :
    shorten "abcdefgh" 10 = "abcdefgh" ∧
    shorten "abcdefgh" 2 = strTake "abcdefgh" 2 ∧
    shorten "abcdefgh" 5 = strTake "abcdefgh" 1 ++ "..." ++ pyTailSlice "abcdefgh" 1 :=
  ⟨c9_shorten_spec.1 "abcdefgh" 10 (by decide),
   c9_shorten_spec.2.1 "abcdefgh" 2 (by decide) (by decide),
   c9_shorten_spec.2.2.1 "abcdefgh" 5 (by decide) (by decide)⟩

/-- C10: every byte fed to the notifier keeps the completed-line history at no
more than two lines: it is either untouched, or becomes the last two of the
old history extended with the flushed line (the buffer, possibly with the new
byte appended on the prompt path), older lines being discarded in order. -/
theorem c10_bounded_history (s : PNState) (c : Char) (stdin : Bool) (inp : String)
    (h : s.lines.length ≤ 2) :
    (pnCall s c stdin inp).lines.length ≤ 2 ∧
    ((pnCall s c stdin inp).lines = s.lines ∨
     (pnCall s c stdin inp).lines = takeLast2 (s.lines ++ [s.line_acc]) ∨
     (pnCall s c stdin inp).lines = takeLast2 (s.lines ++ [s.line_acc ++ [c]])) := by
  have hlen : ∀ (l : List (List Char)), (takeLast2 l).length ≤ 2 := by
    intro l; unfold takeLast2; rw [List.length_drop]; omega
  by_cases hc : c = '\r' ∨ c = '\n'
  · rw [pnCall_sep_lines s c stdin inp hc]
    exact ⟨hlen _, Or.inr (Or.inl rfl)⟩
  · by_cases hp : takeLastN 6 (s.line_acc ++ [c]) = promptTail
    · rw [pnCall_prompt_eq s c stdin inp hc hp]
      exact ⟨hlen _, Or.inr (Or.inr rfl)⟩
    · rw [pnCall_noflush s c stdin inp hc hp]
      exact ⟨h, Or.inl rfl⟩

/-- C10 witness: the invariant applied to the fresh notifier receiving one byte. -/
theorem c10_witness :
    (pnCall pnInit 'a' false "").lines.length ≤ 2 ∧
    ((pnCall pnInit 'a' false "").lines = pnInit.lines ∨
     (pnCall pnInit 'a' false "").lines = takeLast2 (pnInit.lines ++ [pnInit.line_acc]) ∨
     (pnCall pnInit 'a' false "").lines = takeLast2 (pnInit.lines ++ [pnInit.line_acc ++ ['a']])) :=
  c10_bounded_history pnInit 'a' false "" (by decide)

end Convert
